import Mathlib

/-!
Verification of the process-boundary adapter in `src/api/bridge_server.py`
and of the puzzle engine it fronts.

The adapter is embedded shallowly: `os.path.exists`, `subprocess.run` and
`json.loads` are oracles collected in a `World`, and each Flask route is a
pure function of the parsed request body and that world.  The engine
executable is not part of the inspected source tree, so the generator and
solution counter it is specified to contain are modelled from the spec
(section 4.2 and 4.3); those definitions say so in their doc comments.
-/

/-- JSON values, as produced by `json.loads` and consumed by `jsonify`. -/
inductive Json where
  | null : Json
  | bool : Bool → Json
  | num : Int → Json
  | str : String → Json
  | arr : List Json → Json
  | obj : List (String × Json) → Json

/-- Field lookup in a JSON object; `none` on non-objects and absent keys. -/
def Json.lookup (j : Json) (k : String) : Option Json :=
  match j with
  | .obj fields => List.lookup k fields
  | _ => none

/-- Outcome of `subprocess.run(argv, capture_output=True, text=True, check=True)`:
normal completion with the captured stdout, a `CalledProcessError` raised by
`check=True` on a non-zero exit status, or any other exception (each carrying
the text Python renders for the exception object). -/
inductive RunOutcome where
  | ok (stdout : String)
  | calledProcessError (msg : String)
  | exn (msg : String)

/-- The ambient effects `call_cpp_api` performs, as oracles: `pathExists` is
`os.path.exists`, `run` is `subprocess.run` on an argument vector, and
`parseJson` is `json.loads` (returning the parsed value, or the text of the
`JSONDecodeError`). -/
structure World where
  pathExists : String → Bool
  run : List String → RunOutcome
  parseJson : String → Except String Json

/-- The candidate executable paths tried in order (bridge_server.py lines 15-19). -/
def possible_paths : List String :=
  ["../../build/bin/sudoku_api", "./build/bin/sudoku_api", "build/bin/sudoku_api"]

/-- Python `str(possible_paths)`. -/
def pathsRepr : String :=
  "[\x27../../build/bin/sudoku_api\x27, \x27./build/bin/sudoku_api\x27, \x27build/bin/sudoku_api\x27]"

/-- The message returned when no candidate path exists (line 28). -/
def notFoundMsg : String :=
  "C++ API not found. Run \x27make\x27 first. Checked paths: " ++ pathsRepr

/-- The argument vector passed to `subprocess.run` (lines 31-36): Python
`if params:` is string truthiness, so an empty `params` drops the argument. -/
def argvOf (api_path command params : String) : List String :=
  if params = "" then [api_path, command] else [api_path, command, params]

/-- A `{"success": false, "message": m}` dict, as built on lines 28, 42, 44, 46. -/
def errJson (m : String) : Json :=
  .obj [("success", .bool false), ("message", .str m)]

/-- Shallow embedding of `call_cpp_api(command, params)` (lines 11-46): find the
first existing candidate path, spawn the engine on it, parse its stdout; every
failure mode is caught and encoded as a `success: false` object. -/
def call_cpp_api (w : World) (command params : String) : Json :=
  match possible_paths.find? w.pathExists with
  | none => errJson notFoundMsg
  | some api_path =>
    match w.run (argvOf api_path command params) with
    | .ok stdout =>
      match w.parseJson stdout with
      | .ok j => j
      | .error e => errJson ("JSON parse error: " ++ e)
    | .calledProcessError e => errJson ("C++ API error: " ++ e)
    | .exn e => errJson ("Unexpected error: " ++ e)

/-- The argument vectors `call_cpp_api` hands to `subprocess.run`: none when
no executable is found, otherwise exactly one. -/
def spawnedArgvs (w : World) (command params : String) : List (List String) :=
  match possible_paths.find? w.pathExists with
  | none => []
  | some api_path => [argvOf api_path command params]

/-- A parsed JSON request body.  Each field is `some s` when the key is present
(with `s` the Python `str()` image of its value, which is what the f-string on
line 61 and the `str()` on line 138 produce) and `none` when absent. -/
structure Request where
  row : Option String
  col : Option String
  value : Option String
  difficulty : Option String
  solver : Option String
  puzzles : Option String

/-- The thirteen Flask routes of bridge_server.py, named after their handlers. -/
inductive Endpoint where
  | get_board
  | make_move
  | load_puzzle
  | generate_puzzle
  | clear_board
  | get_status
  | validate_board
  | get_ai_hint
  | get_ai_moves
  | solve_puzzle
  | get_ai_stats
  | train_ai
  | health_check
deriving DecidableEq

/-- The engine call `(command, params)` an endpoint makes for a request:
`none` when the handler raises before reaching `call_cpp_api` (the `data[...]`
subscripts of `make_move` on a missing key) or never calls the engine
(`health_check`).  `Option.getD` embeds Python `dict.get(key, default)`. -/
def invokedCall (ep : Endpoint) (r : Request) : Option (String × String) :=
  match ep with
  | .get_board => some ("get_board", "")
  | .make_move =>
    match r.row, r.col, r.value with
    | some a, some b, some c => some ("make_move", a ++ "," ++ b ++ "," ++ c)
    | _, _, _ => none
  | .load_puzzle => some ("load_puzzle", "")
  | .generate_puzzle => some ("generate_puzzle", r.difficulty.getD "medium")
  | .clear_board => some ("clear_board", "")
  | .get_status => some ("get_status", "")
  | .validate_board => some ("validate", "")
  | .get_ai_hint => some ("get_ai_move", r.solver.getD "neuro_symbolic")
  | .get_ai_moves => some ("get_ai_moves", r.solver.getD "neuro_symbolic")
  | .solve_puzzle => some ("solve_puzzle", r.solver.getD "neuro_symbolic")
  | .get_ai_stats => some ("training_stats", "")
  | .train_ai => some ("train_batch", r.puzzles.getD "10")
  | .health_check => none

/-- The fixed `/health` response body (line 144). -/
def healthJson : Json :=
  .obj [("status", .str "healthy"), ("message", .str "Sudoku API Bridge is running")]

/-- An endpoint's HTTP response body: `some` the jsonified value, `none` when
the handler raised (a missing required key, surfaced by Flask as an error page
rather than a handler response). -/
def handle (ep : Endpoint) (r : Request) (w : World) : Option Json :=
  match ep with
  | .health_check => some healthJson
  | _ => (invokedCall ep r).map (fun cp => call_cpp_api w cp.1 cp.2)

/-- The commands of the interface table in section 6 of the spec. -/
def interfaceCommands : List String :=
  ["get_board", "make_move", "load_puzzle", "generate_puzzle", "clear_board",
   "get_status", "validate", "get_ai_move", "get_ai_moves", "solve_puzzle",
   "train_batch", "training_stats"]

/-- Some error occurred inside `call_cpp_api`: no executable found, a
`CalledProcessError` (non-zero exit), some other exception from the spawn,
or stdout that failed to parse as JSON. -/
def engineCallFails (w : World) (command params : String) : Prop :=
  possible_paths.find? w.pathExists = none ∨
  ∃ api_path, possible_paths.find? w.pathExists = some api_path ∧
    ((∃ e, w.run (argvOf api_path command params) = .calledProcessError e) ∨
     (∃ e, w.run (argvOf api_path command params) = .exn e) ∨
     (∃ s e, w.run (argvOf api_path command params) = .ok s ∧
        w.parseJson s = .error e))

/-- A request with every optional field absent. -/
def emptyRequest : Request :=
  ⟨none, none, none, none, none, none⟩

/-- A request carrying every field, for exercising the handlers. -/
def fullRequest : Request :=
  ⟨some "1", some "2", some "3", some "easy", some "symbolic", some "5"⟩

/-- A world where no executable path exists. -/
def noEngineWorld : World :=
  ⟨fun _ => false, fun _ => .ok "", fun _ => .error "never parsed"⟩

/-- A world where the first path exists and the engine prints `{}`. -/
def okWorld : World :=
  ⟨fun _ => true, fun _ => .ok "{}", fun _ => .ok (.obj [])⟩

lemma handle_eq (ep : Endpoint) (r : Request) (w : World) (h : ep ≠ .health_check) :
    handle ep r w = (invokedCall ep r).map (fun cp => call_cpp_api w cp.1 cp.2) := by
  cases ep <;> first | rfl | exact absurd rfl h

lemma handle_eq_call (ep : Endpoint) (r : Request) (w : World) (c p : String)
    (hic : invokedCall ep r = some (c, p)) :
    handle ep r w = some (call_cpp_api w c p) := by
  have hne : ep ≠ .health_check := by
    intro he; subst he; simp [invokedCall] at hic
  rw [handle_eq ep r w hne, hic, Option.map_some']

lemma call_cpp_api_fails_shape (w : World) (c p : String)
    (hfail : engineCallFails w c p) :
    ∃ m, call_cpp_api w c p = errJson m := by
  rcases hfail with hnone | ⟨a, hfind, ⟨e, hrun⟩ | ⟨e, hrun⟩ | ⟨s, e, hrun, hparse⟩⟩
  · exact ⟨notFoundMsg, by simp [call_cpp_api, hnone]⟩
  · exact ⟨"C++ API error: " ++ e, by simp [call_cpp_api, hfind, hrun]⟩
  · exact ⟨"Unexpected error: " ++ e, by simp [call_cpp_api, hfind, hrun]⟩
  · exact ⟨"JSON parse error: " ++ e, by simp [call_cpp_api, hfind, hrun, hparse]⟩

lemma call_cpp_api_cases (w : World) (c p : String) :
    (∃ a s, possible_paths.find? w.pathExists = some a ∧
       w.run (argvOf a c p) = .ok s ∧
       w.parseJson s = .ok (call_cpp_api w c p)) ∨
    (∃ m, call_cpp_api w c p = errJson m) := by
  rcases hfind : possible_paths.find? w.pathExists with _ | a
  · exact .inr ⟨notFoundMsg, by simp [call_cpp_api, hfind]⟩
  · rcases hrun : w.run (argvOf a c p) with s | e | e
    · rcases hparse : w.parseJson s with e | j
      · exact .inr ⟨"JSON parse error: " ++ e,
          by simp [call_cpp_api, hfind, hrun, hparse]⟩
      · exact .inl ⟨a, s, rfl, hrun, by simp [call_cpp_api, hfind, hrun, hparse]⟩
    · exact .inr ⟨"C++ API error: " ++ e, by simp [call_cpp_api, hfind, hrun]⟩
    · exact .inr ⟨"Unexpected error: " ++ e, by simp [call_cpp_api, hfind, hrun]⟩

/-- C1: for every endpoint that reaches the engine, any failure inside
`call_cpp_api` (no executable, non-zero exit, unparsable stdout, any other
exception) yields a normal response of the shape
`{"success": false, "message": <string>}` rather than an exception crossing
the HTTP boundary. -/
theorem endpoint_error_is_encoded (ep : Endpoint) (r : Request) (w : World)
    (c p : String) (hic : invokedCall ep r = some (c, p))
    (hfail : engineCallFails w c p) :
    ∃ m, handle ep r w = some (.obj [("success", .bool false), ("message", .str m)]) := by
  obtain ⟨m, hm⟩ := call_cpp_api_fails_shape w c p hfail
  exact ⟨m, by rw [handle_eq_call ep r w c p hic, hm]; rfl⟩

theorem endpoint_error_is_encoded_witness :
    ∃ m, handle .get_board emptyRequest noEngineWorld =
      some (.obj [("success", .bool false), ("message", .str m)]) :=
  endpoint_error_is_encoded .get_board emptyRequest noEngineWorld "get_board" ""
    rfl (.inl rfl)

/-- C2: when the engine subprocess exits successfully and its stdout parses as
JSON, `call_cpp_api` returns exactly the parsed value, and the endpoint's
response body is that value unmodified. -/
theorem endpoint_relays_engine_json (ep : Endpoint) (r : Request) (w : World)
    (c p a s : String) (j : Json)
    (hic : invokedCall ep r = some (c, p))
    (hfind : possible_paths.find? w.pathExists = some a)
    (hrun : w.run (argvOf a c p) = .ok s)
    (hparse : w.parseJson s = .ok j) :
    call_cpp_api w c p = j ∧ handle ep r w = some j := by
  have hcall : call_cpp_api w c p = j := by
    simp [call_cpp_api, hfind, hrun, hparse]
  exact ⟨hcall, by rw [handle_eq_call ep r w c p hic, hcall]⟩

theorem endpoint_relays_engine_json_witness :
    call_cpp_api okWorld "get_board" "" = .obj [] ∧
    handle .get_board emptyRequest okWorld = some (.obj []) :=
  endpoint_relays_engine_json .get_board emptyRequest okWorld
    "get_board" "" "../../build/bin/sudoku_api" "{}" (.obj []) rfl rfl rfl rfl

/-- C3 counterexample: the `/health` endpoint answers
`{"status": "healthy", "message": ...}` — an object with no "success" field at
all — so not every endpoint response carries a boolean `success`. -/
theorem health_response_lacks_success :
    handle .health_check emptyRequest okWorld = some healthJson ∧
    healthJson.lookup "success" = none ∧
    healthJson.lookup "status" = some (.str "healthy") :=
  ⟨rfl, rfl, rfl⟩

/-- C3 amended: every response the adapter constructs itself is either one of
`call_cpp_api`'s error objects `{"success": false, "message": <string>}` or the
fixed `/health` body (which has "status" and "message" but no "success");
every other response is the engine's parsed stdout relayed unmodified, so it
carries `success`/`message` fields only if the engine emitted them. -/
theorem response_shape_cases (ep : Endpoint) (r : Request) (w : World) (j : Json)
    (h : handle ep r w = some j) :
    (∃ c p a s, invokedCall ep r = some (c, p) ∧
       possible_paths.find? w.pathExists = some a ∧
       w.run (argvOf a c p) = .ok s ∧ w.parseJson s = .ok j) ∨
    (∃ m, j = errJson m) ∨
    (ep = .health_check ∧ j = healthJson) := by
  by_cases hep : ep = .health_check
  · subst hep
    refine .inr (.inr ⟨rfl, ?_⟩)
    have : some healthJson = some j := h
    exact (Option.some_injective _ this).symm
  · rw [handle_eq ep r w hep] at h
    rcases hic : invokedCall ep r with _ | ⟨c, p⟩
    · rw [hic] at h; simp at h
    · rw [hic] at h
      simp only [Option.map_some', Option.some_inj] at h
      rcases call_cpp_api_cases w c p with ⟨a, s, h1, h2, h3⟩ | ⟨m, hm⟩
      · exact .inl ⟨c, p, a, s, rfl, h1, h2, h ▸ h3⟩
      · exact .inr (.inl ⟨m, h ▸ hm⟩)

theorem response_shape_cases_witness :
    (∃ c p a s, invokedCall .health_check emptyRequest = some (c, p) ∧
       possible_paths.find? okWorld.pathExists = some a ∧
       okWorld.run (argvOf a c p) = .ok s ∧
       okWorld.parseJson s = .ok healthJson) ∨
    (∃ m, healthJson = errJson m) ∨
    ((Endpoint.health_check = Endpoint.health_check) ∧ healthJson = healthJson) :=
  response_shape_cases .health_check emptyRequest okWorld healthJson rfl

/-- C5: a move request carrying `row`, `col` and `value` invokes the engine
with command "make_move" and the single comma-joined parameter
`"row,col,value"`, passed as one argv entry. -/
theorem make_move_invocation (r : Request) (w : World) (a b c ap : String)
    (hr : r.row = some a) (hc : r.col = some b) (hv : r.value = some c)
    (hfind : possible_paths.find? w.pathExists = some ap) :
    invokedCall .make_move r = some ("make_move", a ++ "," ++ b ++ "," ++ c) ∧
    spawnedArgvs w "make_move" (a ++ "," ++ b ++ "," ++ c) =
      [[ap, "make_move", a ++ "," ++ b ++ "," ++ c]] := by
  constructor
  · simp [invokedCall, hr, hc, hv]
  · have hne : a ++ "," ++ b ++ "," ++ c ≠ "" := by
      intro he
      have hlen := congrArg String.length he
      have hcomma : String.length "," = 1 := rfl
      have hnil : String.length "" = 0 := rfl
      simp only [String.length_append, hcomma, hnil] at hlen
      omega
    simp [spawnedArgvs, hfind, argvOf, hne]

theorem make_move_invocation_witness :
    invokedCall .make_move fullRequest = some ("make_move", "1" ++ "," ++ "2" ++ "," ++ "3") ∧
    spawnedArgvs okWorld "make_move" ("1" ++ "," ++ "2" ++ "," ++ "3") =
      [["../../build/bin/sudoku_api", "make_move", "1" ++ "," ++ "2" ++ "," ++ "3"]] :=
  make_move_invocation fullRequest okWorld "1" "2" "3" "../../build/bin/sudoku_api"
    rfl rfl rfl rfl

/-- C6: every engine invocation an endpoint causes spawns an argv of the form
`[api_path, command]` or `[api_path, command, params]` — one command, at most
one parameter string, never more. -/
theorem engine_argv_shape (ep : Endpoint) (r : Request) (w : World)
    (c p : String) (argv : List String)
    (_hic : invokedCall ep r = some (c, p))
    (hmem : argv ∈ spawnedArgvs w c p) :
    ∃ a, possible_paths.find? w.pathExists = some a ∧
      (argv = [a, c] ∨ argv = [a, c, p]) ∧ argv.length ≤ 3 := by
  unfold spawnedArgvs at hmem
  rcases hfind : possible_paths.find? w.pathExists with _ | a
  · rw [hfind] at hmem; simp at hmem
  · rw [hfind] at hmem
    simp only [List.mem_singleton] at hmem
    subst hmem
    refine ⟨a, rfl, ?_, ?_⟩
    · unfold argvOf
      by_cases hp : p = "" <;> simp [hp]
    · unfold argvOf
      by_cases hp : p = "" <;> simp [hp]

theorem engine_argv_shape_witness :
    ∃ a, possible_paths.find? okWorld.pathExists = some a ∧
      (["../../build/bin/sudoku_api", "get_board"] = [a, "get_board"] ∨
       ["../../build/bin/sudoku_api", "get_board"] = [a, "get_board", ""]) ∧
      (["../../build/bin/sudoku_api", "get_board"] : List String).length ≤ 3 :=
  engine_argv_shape .get_board emptyRequest okWorld "get_board" ""
    ["../../build/bin/sudoku_api", "get_board"] rfl
    (by simp [spawnedArgvs, argvOf, okWorld, possible_paths, List.find?])

/-- C7: every command of the section-6 interface table is issued by some
endpoint, and no endpoint ever issues a command outside that table. -/
theorem command_surface :
    (∀ cmd ∈ interfaceCommands, ∃ ep r p, invokedCall ep r = some (cmd, p)) ∧
    (∀ (ep : Endpoint) (r : Request) (cmd p : String),
      invokedCall ep r = some (cmd, p) → cmd ∈ interfaceCommands) := by
  constructor
  · intro cmd hcmd
    simp only [interfaceCommands, List.mem_cons, List.not_mem_nil, or_false] at hcmd
    rcases hcmd with rfl | rfl | rfl | rfl | rfl | rfl | rfl | rfl | rfl | rfl | rfl | rfl
    · exact ⟨.get_board, emptyRequest, "", rfl⟩
    · exact ⟨.make_move, fullRequest, "1,2,3", rfl⟩
    · exact ⟨.load_puzzle, emptyRequest, "", rfl⟩
    · exact ⟨.generate_puzzle, emptyRequest, "medium", rfl⟩
    · exact ⟨.clear_board, emptyRequest, "", rfl⟩
    · exact ⟨.get_status, emptyRequest, "", rfl⟩
    · exact ⟨.validate_board, emptyRequest, "", rfl⟩
    · exact ⟨.get_ai_hint, emptyRequest, "neuro_symbolic", rfl⟩
    · exact ⟨.get_ai_moves, emptyRequest, "neuro_symbolic", rfl⟩
    · exact ⟨.solve_puzzle, emptyRequest, "neuro_symbolic", rfl⟩
    · exact ⟨.train_ai, emptyRequest, "10", rfl⟩
    · exact ⟨.get_ai_stats, emptyRequest, "", rfl⟩
  · intro ep r cmd p h
    obtain ⟨row, col, value, d, sv, pz⟩ := r
    cases ep <;> cases row <;> cases col <;> cases value <;>
      simp_all [invokedCall, interfaceCommands]

/-- C8: when none of the three candidate executable paths exists, the adapter
reports `{"success": false, "message": ...}` with a message that names every
checked path, and spawns no subprocess at all. -/
theorem missing_engine_reported (w : World) (c p : String)
    (h : ∀ q ∈ possible_paths, w.pathExists q = false) :
    call_cpp_api w c p = errJson notFoundMsg ∧
    spawnedArgvs w c p = [] ∧
    ∀ q ∈ possible_paths, q.data <:+: notFoundMsg.data := by
  have hfind : possible_paths.find? w.pathExists = none := by
    rw [List.find?_eq_none]
    intro q hq
    simp [h q hq]
  refine ⟨?_, ?_, ?_⟩
  · simp [call_cpp_api, hfind]
  · simp [spawnedArgvs, hfind]
  · decide

theorem missing_engine_reported_witness :
    call_cpp_api noEngineWorld "get_board" "" = errJson notFoundMsg ∧
    spawnedArgvs noEngineWorld "get_board" "" = [] ∧
    ∀ q ∈ possible_paths, q.data <:+: notFoundMsg.data :=
  missing_engine_reported noEngineWorld "get_board" "" (fun _ _ => rfl)

/-- C9: each optional request field has a fixed default substituted when the
field is absent: difficulty "medium" for generate_puzzle, solver
"neuro_symbolic" for the hint/moves/solve endpoints, and puzzle count "10"
(the `str()` of the integer 10) for train_ai — the handler still reaches the
engine rather than failing. -/
theorem optional_field_defaults (r : Request) :
    (r.difficulty = none →
      invokedCall .generate_puzzle r = some ("generate_puzzle", "medium")) ∧
    (r.solver = none →
      invokedCall .get_ai_hint r = some ("get_ai_move", "neuro_symbolic")) ∧
    (r.solver = none →
      invokedCall .get_ai_moves r = some ("get_ai_moves", "neuro_symbolic")) ∧
    (r.solver = none →
      invokedCall .solve_puzzle r = some ("solve_puzzle", "neuro_symbolic")) ∧
    (r.puzzles = none →
      invokedCall .train_ai r = some ("train_batch", "10")) := by
  refine ⟨fun h => ?_, fun h => ?_, fun h => ?_, fun h => ?_, fun h => ?_⟩ <;>
    simp [invokedCall, h]

theorem optional_field_defaults_witness :
    invokedCall .generate_puzzle emptyRequest = some ("generate_puzzle", "medium") ∧
    invokedCall .get_ai_hint emptyRequest = some ("get_ai_move", "neuro_symbolic") ∧
    invokedCall .get_ai_moves emptyRequest = some ("get_ai_moves", "neuro_symbolic") ∧
    invokedCall .solve_puzzle emptyRequest = some ("solve_puzzle", "neuro_symbolic") ∧
    invokedCall .train_ai emptyRequest = some ("train_batch", "10") := by
  have h := optional_field_defaults emptyRequest
  exact ⟨h.1 rfl, h.2.1 rfl, h.2.2.1 rfl, h.2.2.2.1 rfl, h.2.2.2.2 rfl⟩

lemma find?_paths_congr {f g : String → Bool}
    (h : ∀ q ∈ possible_paths, f q = g q) :
    possible_paths.find? f = possible_paths.find? g := by
  have h1 := h "../../build/bin/sudoku_api" (by simp [possible_paths])
  have h2 := h "./build/bin/sudoku_api" (by simp [possible_paths])
  have h3 := h "build/bin/sudoku_api" (by simp [possible_paths])
  simp [possible_paths, List.find?, h1, h2, h3]

/-- C10: `call_cpp_api` consults nothing besides the three candidate paths,
the subprocess outcome and the parse of its stdout: two worlds agreeing on
those produce identical results and identical spawned argument vectors. -/
theorem call_cpp_api_deterministic (w₁ w₂ : World) (c p : String)
    (hfs : ∀ q ∈ possible_paths, w₁.pathExists q = w₂.pathExists q)
    (hrun : ∀ a, w₁.run a = w₂.run a)
    (hparse : ∀ s, w₁.parseJson s = w₂.parseJson s) :
    call_cpp_api w₁ c p = call_cpp_api w₂ c p ∧
    spawnedArgvs w₁ c p = spawnedArgvs w₂ c p := by
  have hfind : possible_paths.find? w₁.pathExists = possible_paths.find? w₂.pathExists :=
    find?_paths_congr hfs
  constructor
  · unfold call_cpp_api
    rw [hfind]
    simp only [hrun, hparse]
  · unfold spawnedArgvs
    rw [hfind]

theorem call_cpp_api_deterministic_witness :
    call_cpp_api okWorld "get_board" "" = call_cpp_api okWorld "get_board" "" ∧
    spawnedArgvs okWorld "get_board" "" = spawnedArgvs okWorld "get_board" "" :=
  call_cpp_api_deterministic okWorld okWorld "get_board" ""
    (fun _ _ => rfl) (fun _ => rfl) (fun _ => rfl)

/-! ### The engine: generator and solution counter, modelled from the spec

The C++ engine executable invoked by the adapter is not among the inspected
source files; sections 4.2 and 4.3 of the spec describe its solver and
generator, and claim C4 is settled against the model below.  A board is the
base-10 encoding of its 81 cells in row-major order: cell `i` (row `i / 9`,
column `i % 9`) is digit `i`, with `0` = empty and `1`-`9` a placed value. -/

/-- Forces a `Nat` to a literal before passing it on (evaluation plumbing with
`withNat n k = k n`; this keeps board values from piling up as unevaluated
arithmetic during kernel reduction). -/
def withNat (n : Nat) (k : Nat → α) : α :=
  match n with
  | 0 => k 0
  | m + 1 => k (m + 1)

lemma withNat_eq (n : Nat) (k : Nat → α) : withNat n k = k n := by
  cases n <;> rfl

/-- Value of cell `i` of board `b`. -/
def getCell (b i : Nat) : Nat := b / Nat.pow 10 i % 10

/-- Board `b` with cell `i` overwritten by `v`. -/
def setCell (b i v : Nat) : Nat :=
  b - getCell b i * Nat.pow 10 i + v * Nat.pow 10 i

/-- Board `b` with cell `i` emptied. -/
def clearCell (b i : Nat) : Nat := b - getCell b i * Nat.pow 10 i

/-- Modelled from the spec: value `v` is absent from cell `i`'s row, column
and containing 3-by-3 box (the three units of section 4.1's legality check). -/
def valObeys (b i v : Nat) : Bool :=
  (List.range 9).all fun k =>
    getCell b (i / 9 * 9 + k) != v &&
    getCell b (k * 9 + i % 9) != v &&
    getCell b ((i / 9 / 3 * 3 + k / 3) * 9 + (i % 9 / 3 * 3 + k % 3)) != v

/-- Modelled from the spec: section 4.1's `is_legal` — the target cell is
empty and `v` lies in 1..9 and is absent from the cell's row, column and box. -/
def is_legal (b i v : Nat) : Bool :=
  getCell b i == 0 && Nat.ble 1 v && Nat.ble v 9 && valObeys b i v

/-- Bitmask of the values already present among cell `i`'s row, column and
box peers (bit `v` set iff some peer holds `v`). -/
def usedMask (b i : Nat) : Nat :=
  (List.range 9).foldl
    (fun m k =>
      Nat.lor
        (Nat.lor
          (Nat.lor m (Nat.shiftLeft 1 (getCell b (i / 9 * 9 + k))))
          (Nat.shiftLeft 1 (getCell b (k * 9 + i % 9))))
        (Nat.shiftLeft 1 (getCell b ((i / 9 / 3 * 3 + k / 3) * 9 + (i % 9 / 3 * 3 + k % 3)))))
    0

/-- Number of legal candidate values (1..9 absent from all peers) for cell `i`. -/
def candCount (b i : Nat) : Nat :=
  withNat (usedMask b i) (fun m =>
    ((List.range 9).filter fun d => Nat.land m (Nat.shiftLeft 1 (d + 1)) == 0).length)

/-- Modelled from the spec: minimum-remaining-values cell choice of section
4.2 — the empty cell with the fewest legal candidates, ties broken by lowest
row-major index (the scan order). -/
def mrvChoose (b : Nat) : Nat :=
  ((List.range 81).foldl
    (fun best i =>
      if getCell b i == 0 then
        withNat (candCount b i) (fun c => if c < best.2 then (i, c) else best)
      else best)
    (81, 10)).1

/-- The lowest-index empty cell, `none` when the board is complete. -/
def firstEmptyIdx (b : Nat) : Option Nat :=
  (List.range 81).find? fun i => getCell b i == 0

/-- Try each candidate value in the given order at cell `i`: place the first
legal one and recurse via `recur`; on exhaustion of the list report failure
(the caller backtracks). -/
def tryCands (recur : Nat → Option Nat) (b i : Nat) : List Nat → Option Nat
  | [] => none
  | v :: vs =>
    if is_legal b i v then
      match withNat (setCell b i v) recur with
      | some s => some s
      | none => tryCands recur b i vs
    else tryCands recur b i vs

/-- Modelled from the spec: the backtracking search of section 4.2 driven by
the randomized candidate order of section 4.3 (a): at each decision point pick
the MRV cell and try the values of `perms depth` in order, backtracking on
dead ends.  `perms` is the explicit stream standing for the fresh random
permutation of 1-9 drawn at each decision depth; `fuel` bounds the recursion
depth (82 suffices: each level fills one of the 81 cells). -/
def solveRandGo : Nat → (Nat → List Nat) → Nat → Nat → Option Nat
  | 0, _, _, _ => none
  | fuel + 1, perms, depth, b =>
    match firstEmptyIdx b with
    | none => some b
    | some _ =>
      tryCands (fun b2 => solveRandGo fuel perms (depth + 1) b2) b (mrvChoose b) (perms depth)

/-- Modelled from the spec: the solution counter of section 4.2, fuel-indexed
on the number of cells still to fill.  At the first empty cell, candidates are
tried in ascending order and the counts summed, early-exiting once `limit`
solutions are found; a complete board counts as one solution. -/
def count_solutions_go : Nat → Nat → Nat → Nat
  | 0, _, _ => 0
  | fuel + 1, b, limit =>
    if limit == 0 then 0
    else
      match firstEmptyIdx b with
      | none => 1
      | some i =>
        (List.range 9).foldl
          (fun acc d =>
            if limit ≤ acc then acc
            else if is_legal b i (d + 1) then
              acc + count_solutions_go fuel (setCell b i (d + 1)) (limit - acc)
            else acc)
          0

/-- Modelled from the spec: `count_solutions(board, limit)` — the number of
completions of `board`, capped at `limit` (81 units of fuel cover any number
of empty cells). -/
def count_solutions (b limit : Nat) : Nat := count_solutions_go 81 b limit

/-- The row-major indices of the filled cells. -/
def filledIdxs (b : Nat) : List Nat :=
  (List.range 81).filter fun i => getCell b i != 0

/-- Modelled from the spec: the carving loop of section 4.3 (b) — repeatedly
pick a filled cell (driven by the explicit random stream `rs`), clear it, and
keep the removal only if `count_solutions _ 2 = 1` still holds; stop at or
below the difficulty's target filled-cell count or when the attempt budget
(the length of `rs`) is exhausted, returning the closest achieved board. -/
def carve (target : Nat) : List Nat → Nat → Nat
  | [], b => b
  | r :: rs, b =>
    if (filledIdxs b).length ≤ target then b
    else if count_solutions (clearCell b ((filledIdxs b).getD (r % (filledIdxs b).length) 0)) 2 == 1 then
      carve target rs (clearCell b ((filledIdxs b).getD (r % (filledIdxs b).length) 0))
    else carve target rs b

/-- The difficulty tiers of section 3 of the spec. -/
inductive Difficulty where
  | easy
  | medium
  | hard
  | expert

/-- Modelled from the spec: each difficulty's target count of given cells
(the spec fixes only that such a mapping exists; these are representative
values, unused by the uniqueness argument). -/
def targetFilled : Difficulty → Nat
  | .easy => 40
  | .medium => 32
  | .hard => 28
  | .expert => 24

/-- Modelled from the spec: `generate(difficulty)` of section 4.3 — solve the
empty board by randomized backtracking, then carve cells while uniqueness is
preserved.  The two explicit streams stand for the generator's internal
randomness; `none` only when the (never-failing in practice) initial solve
finds no complete board within its depth fuel. -/
def generate (d : Difficulty) (perms : Nat → List Nat) (removals : List Nat) : Option Nat :=
  (solveRandGo 82 perms 0 0).map (carve (targetFilled d) removals)

lemma tryCands_sound (recur : Nat → Option Nat) (P : Nat → Prop)
    (hrec : ∀ b2 s, recur b2 = some s → P s) :
    ∀ (vs : List Nat) (b i s : Nat), tryCands recur b i vs = some s → P s := by
  intro vs
  induction vs with
  | nil => intro b i s h; simp [tryCands] at h
  | cons v vs ih =>
    intro b i s h
    rw [tryCands, withNat_eq] at h
    by_cases hl : (is_legal b i v) = true
    · rw [if_pos hl] at h
      rcases hr : recur (setCell b i v) with _ | s2
      · simp only [hr] at h
        exact ih b i s h
      · simp only [hr] at h
        injection h with h2
        exact h2 ▸ hrec _ s2 hr
    · rw [if_neg hl] at h
      exact ih b i s h

lemma solveRandGo_complete :
    ∀ (fuel : Nat) (perms : Nat → List Nat) (depth b s : Nat),
      solveRandGo fuel perms depth b = some s → firstEmptyIdx s = none := by
  intro fuel
  induction fuel with
  | zero => intro perms depth b s h; simp [solveRandGo] at h
  | succ fuel ih =>
    intro perms depth b s h
    rw [solveRandGo] at h
    rcases hfe : firstEmptyIdx b with _ | i
    · simp only [hfe] at h
      injection h with h2
      exact h2 ▸ hfe
    · simp only [hfe] at h
      exact tryCands_sound _ (fun s2 => firstEmptyIdx s2 = none)
        (fun b2 s2 hs => ih perms (depth + 1) b2 s2 hs) (perms depth) b (mrvChoose b) s h

lemma count_solutions_complete (b : Nat) (h : firstEmptyIdx b = none) :
    count_solutions b 2 = 1 := by
  show count_solutions_go (80 + 1) b 2 = 1
  rw [count_solutions_go]
  simp [h]

lemma carve_preserves :
    ∀ (rs : List Nat) (target b : Nat),
      count_solutions b 2 = 1 → count_solutions (carve target rs b) 2 = 1 := by
  intro rs
  induction rs with
  | nil => intro target b h; simpa [carve] using h
  | cons r rs ih =>
    intro target b h
    rw [carve]
    by_cases h1 : (filledIdxs b).length ≤ target
    · rw [if_pos h1]; exact h
    · rw [if_neg h1]
      by_cases h2 : (count_solutions
          (clearCell b ((filledIdxs b).getD (r % (filledIdxs b).length) 0)) 2 == 1) = true
      · rw [if_pos h2]
        simp only [beq_iff_eq] at h2
        exact ih target _ h2
      · rw [if_neg h2]
        exact ih target b h

/-- C4: every board the generator returns admits exactly one completion:
`count_solutions board 2 = 1`.  The initial fully solved board has exactly one
(trivial) completion, and the carving loop only commits a removal after
re-checking `count_solutions _ 2 = 1`, so uniqueness is an invariant of
generation for every difficulty and every draw of the random streams. -/
theorem generate_unique_solution (d : Difficulty) (perms : Nat → List Nat)
    (removals : List Nat) (b : Nat) (h : generate d perms removals = some b) :
    count_solutions b 2 = 1 := by
  unfold generate at h
  rcases hs : solveRandGo 82 perms 0 0 with _ | b0
  · rw [hs] at h; simp at h
  · rw [hs] at h
    simp only [Option.map_some', Option.some_inj] at h
    subst h
    exact carve_preserves removals (targetFilled d) b0
      (count_solutions_complete b0 (solveRandGo_complete 82 perms 0 0 b0 hs))

/-- One draw of the generator's candidate-order stream: at decision depth `k`
the permutation drawn happens to begin with `oracleVals[k]`, the value the
final grid holds at the MRV cell of that depth, so the search never
backtracks (any tail completing the permutation is never consulted). -/
def oracleVals : List Nat :=
  [1, 2, 3, 4, 5, 6, 7, 8, 9, 4, 5, 6, 1, 2, 3, 7, 8, 9, 7, 8, 9, 1, 2, 3, 4,
   5, 6, 2, 4, 7, 1, 3, 6, 9, 5, 8, 5, 7, 4, 3, 9, 6, 2, 8, 1, 8, 1, 9, 2, 4,
   3, 5, 7, 6, 3, 6, 9, 6, 3, 9, 9, 3, 6, 4, 7, 1, 7, 4, 1, 1, 4, 7, 5, 8, 2,
   8, 5, 2, 2, 5, 8]

/-- The candidate-order stream built from `oracleVals`. -/
def oraclePerms (k : Nat) : List Nat := [oracleVals.getD k 1]

/-- The complete grid this stream steers the randomized solve to (row `r`,
column `c` holds `(r * 3 + r / 3 + c) % 9 + 1`). -/
def solvedBoardNat : Nat :=
  876543219543219876219876543765432198432198765198765432654321987321987654987654321

set_option maxRecDepth 100000 in
set_option maxHeartbeats 10000000 in
theorem generate_unique_solution_witness :
    count_solutions solvedBoardNat 2 = 1 :=
  generate_unique_solution .easy oraclePerms [] solvedBoardNat (by rfl)
